import Mathlib

/-!
Verification of the dockmon stats aggregation and derived-metric engine.

The Go program (main.go) keeps, per container id, a bounded rolling list of
raw stats snapshots (`statsData map[string][]*dockerclient.Stats`, updated by
`dockerStats`), reconciles the tracked-container set against a fresh container
list (`containerList`), and derives CPU-percent, memory-percent and network
delta metrics from adjacent snapshots (`cpuPercent`, `containerPercentMemory`,
`rxDiffer`/`txDiffer`, `genCPUSystemUsage`, `genNetwork`).

Modelling conventions:
* Go `uint64` values are natural numbers; wrapping subtraction and the
  `int(...)` conversion are made explicit (`u64sub`, `toInt64`)
  with reductions `% 2^64` where Go wraps.
* Go `float64` arithmetic inside `cpuPercent` is idealized as exact rational
  arithmetic (`ℚ`), with `int(p)` as `Int.floor`.  The idealization agrees
  with the mandated IEEE-754 semantics exactly on the positive-delta guard
  (uint64-to-float64 conversion preserves zero and positivity) and on inputs
  where every intermediate float64 value is exactly representable and in
  int64 range; theorems below use `cpuPercent` only in that regime, or as an
  opaque deriver, and claim no exact value where rounding or Go's
  implementation-defined out-of-int64-range `int(float64)` conversion could
  diverge.
* The Go runtime panic on integer division by zero is modelled as `none`.
-/

namespace Dockmon

/-- uint64 modulus, `2^64`. -/
def u64Mod : ℕ := 18446744073709551616

/-- Go `a - b` on `uint64` operands (`a, b < 2^64`): wrapping subtraction. -/
def u64sub (a b : ℕ) : ℕ := (a + u64Mod - b) % u64Mod

/-- Go `int(u)` conversion of a `uint64` value on a 64-bit platform:
two's-complement reinterpretation (`2^63` is the sign boundary). -/
def toInt64 (u : ℕ) : ℤ := if u < 9223372036854775808 then (u : ℤ) else (u : ℤ) - u64Mod

/-- `dockerclient.CpuUsage`: cumulative total ticks and the per-cpu usage
list (only its length is read, as the online cpu count). -/
structure CpuUsage where
  totalUsage : ℕ
  percpuUsage : List ℕ
  deriving DecidableEq, Inhabited

/-- `dockerclient.CpuStats`. -/
structure CpuStats where
  cpuUsage : CpuUsage
  systemUsage : ℕ
  deriving DecidableEq, Inhabited

/-- `dockerclient.MemoryStats`: instantaneous usage and limit gauges. -/
structure MemoryStats where
  usage : ℕ
  limit : ℕ
  deriving DecidableEq, Inhabited

/-- `dockerclient.NetworkStats`: cumulative rx/tx byte counters. -/
structure NetworkStats where
  rxBytes : ℕ
  txBytes : ℕ
  deriving DecidableEq, Inhabited

/-- `dockerclient.Stats`: one raw snapshot.  `read` is the `Read` timestamp
used as the deduplication key. -/
structure Stats where
  read : ℕ
  cpuStats : CpuStats
  memoryStats : MemoryStats
  networkStats : NetworkStats
  deriving DecidableEq, Inhabited

/-- `dockerclient.Container` (only the fields the modelled code reads). -/
structure Container where
  id : String
  names : List String
  deriving DecidableEq, Inhabited

/-- `dockerStats` (main.go): the per-container store update for one incoming
snapshot.  `width` is `ui.Body.Width` (a Go `int`), `old` the stored slice
`statsData[id]`.  The trim is computed on a local slice first; on a duplicate
`Read` timestamp the function returns early and the store keeps `old`. -/
def dockerStats (width : ℤ) (old : List Stats) (s : Stats) : List Stats :=
  let dat := if (old.length : ℤ) > width - 2 then old.tail else old
  -- `len(dat) > 0 && dat[len(dat)-1].Read == stats.Read`
  if dat.getLast?.map Stats.read = some s.read then old
  else dat ++ [s]

/-- Folding a whole stream of snapshots for one container into its (initially
empty) history. -/
def ingestAll (width : ℤ) (ss : List Stats) : List Stats :=
  ss.foldl (dockerStats width) []

/-- `cpuPercent` (main.go): derived CPU percent for `stats[idx]` against
`stats[idx-1]`.  The uint64 counter subtractions wrap.  The float64
arithmetic is idealized as exact rationals and `int(p)` as `Int.floor`
(`p ≥ 0` here, so floor is Go's truncation toward zero); the idealization
is exact on the guard and on inputs whose intermediate float64 values are
all exactly representable and in int64 range — the only inputs at which an
exact value is asserted below. -/
def cpuPercent (stats : List Stats) (idx : ℕ) : ℤ :=
  let mystat := stats.getD idx default
  let prevstat := stats.getD (idx - 1) default
  let cpudelta : ℚ :=
    (u64sub mystat.cpuStats.cpuUsage.totalUsage prevstat.cpuStats.cpuUsage.totalUsage : ℕ)
  let sysdelta : ℚ :=
    (u64sub mystat.cpuStats.systemUsage prevstat.cpuStats.systemUsage : ℕ)
  if sysdelta > 0 ∧ cpudelta > 0 then
    Int.floor (cpudelta / sysdelta * (mystat.cpuStats.cpuUsage.percpuUsage.length : ℚ) * 100)
  else 0

/-- `genCPUSystemUsage` (main.go): one CPU percent per adjacent snapshot
pair, skipping index 0. -/
def genCPUSystemUsage (stats : List Stats) : List ℤ :=
  (List.range stats.length).filterMap fun i =>
    if 0 < i then some (cpuPercent stats i) else none

/-- `rxDiffer` (main.go): `int(cur.RxBytes - prev.RxBytes)` on uint64. -/
def rxDiffer (cur prev : NetworkStats) : ℤ := toInt64 (u64sub cur.rxBytes prev.rxBytes)

/-- `txDiffer` (main.go): `int(cur.TxBytes - prev.TxBytes)` on uint64. -/
def txDiffer (cur prev : NetworkStats) : ℤ := toInt64 (u64sub cur.txBytes prev.txBytes)

/-- `genNetwork` (main.go): one `differ(cur, prev)` value per adjacent
snapshot pair, skipping index 0. -/
def genNetwork (stats : List Stats) (differ : NetworkStats → NetworkStats → ℤ) : List ℤ :=
  (List.range stats.length).filterMap fun i =>
    if 0 < i then
      some (differ (stats.getD i default).networkStats (stats.getD (i - 1) default).networkStats)
    else none

/-- The memory-percent computation of `containerPercentMemory` (main.go):
`int(100 * memused / memlim)` on uint64 operands.  The multiplication wraps
mod `2^64`; a zero `memlim` makes Go panic with a runtime
"integer divide by zero" error, modelled as `none`. -/
def goMemPercent (memused memlim : ℕ) : Option ℤ :=
  if memlim = 0 then none
  else some (toInt64 (100 * memused % u64Mod / memlim))

/-! ### Arithmetic helper lemmas -/

/-- Wrapping subtraction of a value from itself is zero. -/
theorem u64sub_self (a : ℕ) : u64sub a a = 0 := by
  simp [u64sub, u64Mod]

/-- For in-range operands with `b ≤ a`, wrapping subtraction is plain
subtraction. -/
theorem u64sub_of_le (a b : ℕ) (hba : b ≤ a) (ha : a < u64Mod) :
    u64sub a b = a - b := by
  simp only [u64sub, u64Mod] at *
  omega

/-- `int(cur - prev)` on uint64 equals the mathematical signed difference
whenever that difference fits in int64. -/
theorem toInt64_u64sub (a b : ℕ) (ha : a < u64Mod) (hb : b < u64Mod)
    (hlo : -(9223372036854775808 : ℤ) ≤ (a : ℤ) - b)
    (hhi : (a : ℤ) - b < 9223372036854775808) :
    toInt64 (u64sub a b) = (a : ℤ) - b := by
  simp only [toInt64, u64sub, u64Mod] at *
  split <;> omega

/-! ### C1: memory percent and the zero-limit division -/

/-- C1. The latest-snapshot memory percent is `usageBytes * 100 / limitBytes`
with truncating integer division (`512/1024 → 50`, `0/1024 → 0`), but when
`limitBytes = 0` the unguarded uint64 division in `containerPercentMemory`
makes the Go runtime panic ("integer divide by zero"), modelled as `none`:
the program crashes instead of reporting a catchable `DivisionByZero`
condition, so the claim's hardening is absent from the code. -/
theorem goMemPercent_zero_limit_crash :
    goMemPercent 512 1024 = some 50 ∧ goMemPercent 0 1024 = some 0 ∧
      goMemPercent 512 0 = none := by
  decide

/-! ### C2: CPU percent on non-positive deltas and counter resets -/

/-- C2 (amended). The derived CPU percent is `0` when the wrapping uint64
delta of either counter is zero, i.e. when the current total-usage or
system-usage counter equals the previous one: a stalled counter reads as
0 %, never an error.  On this branch the rational model is exact: the
wrapped delta is the uint64 value 0, `float64(0)` is exactly `0.0`, the
guard fails, `p` stays `0.0` and `int(0.0)` is 0 on every conforming
implementation.  (A genuine counter reset does not reach this branch: it
wraps to a positive delta and passes the guard, see the counterexample.) -/
theorem cpuPercent_zero_on_equal_counters (prev cur : Stats)
    (h : cur.cpuStats.cpuUsage.totalUsage = prev.cpuStats.cpuUsage.totalUsage ∨
      cur.cpuStats.systemUsage = prev.cpuStats.systemUsage) :
    cpuPercent [prev, cur] 1 = 0 := by
  rcases h with h | h <;>
    simp [cpuPercent, h, u64sub_self]

/-- C2 witness: the spec's stalled-counter example, prev
`{total 100, sys 1000}` and cur `{total 100, sys 1100}` (cpuDelta = 0),
derives 0 %. -/
def c2prev : Stats :=
  { read := 1
    cpuStats := ⟨⟨100, [0]⟩, 1000⟩
    memoryStats := ⟨0, 0⟩
    networkStats := ⟨0, 0⟩ }

/-- C2 witness: current snapshot with an unchanged total-usage counter. -/
def c2cur : Stats :=
  { read := 2
    cpuStats := ⟨⟨100, [0]⟩, 1100⟩
    memoryStats := ⟨0, 0⟩
    networkStats := ⟨0, 0⟩ }

/-- C2 witness theorem. -/
theorem cpuPercent_zero_on_equal_counters_witness :
    cpuPercent [c2prev, c2cur] 1 = 0 :=
  cpuPercent_zero_on_equal_counters c2prev c2cur (Or.inl rfl)

/-- C2 counterexample: previous snapshot with total-usage counter
`2^64 - 2^20`. -/
def c2resetPrev : Stats :=
  { read := 1
    cpuStats := ⟨⟨18446744073708503040, [0]⟩, 1000⟩
    memoryStats := ⟨0, 0⟩
    networkStats := ⟨0, 0⟩ }

/-- C2 counterexample: current snapshot whose total-usage counter has reset
to 0 (one online cpu, system counter advanced by 1024). -/
def c2resetCur : Stats :=
  { read := 2
    cpuStats := ⟨⟨0, [0]⟩, 2024⟩
    memoryStats := ⟨0, 0⟩
    networkStats := ⟨0, 0⟩ }

/-- C2 counterexample.  On this counter reset (cur total 0 < prev total
`2^64 - 2^20`) the uint64 subtraction wraps to `2^20`, the positive-delta
guard passes, and the derived CPU percent is
`(2^20 / 2^10) * 1 * 100 = 102400`, not `0` as the claim states.  At this
input the rational model provably agrees with the program on every
conforming implementation, because each float64 step is exact:
`float64(2^20)` and `float64(2^10)` are exact, `2^20 / 2^10 = 2^10` is a
power-of-two quotient, `2^10 * 1 * 100 = 102400 < 2^53` is an exact
product, and `int(102400.0)` is an in-range, hence exact, conversion. -/
theorem cpuPercent_counter_reset_not_zero :
    c2resetCur.cpuStats.cpuUsage.totalUsage <
        c2resetPrev.cpuStats.cpuUsage.totalUsage ∧
      cpuPercent [c2resetPrev, c2resetCur] 1 = 102400 ∧
      cpuPercent [c2resetPrev, c2resetCur] 1 ≠ 0 := by
  have h : cpuPercent [c2resetPrev, c2resetCur] 1 = 102400 := by
    simp only [cpuPercent, List.getD, c2resetPrev, c2resetCur, u64sub, u64Mod]
    norm_num
  refine ⟨by decide, h, ?_⟩
  rw [h]
  decide

/-! ### C6: network deltas -/

/-- C6 (amended). The network delta `int(cur - prev)` on uint64 counters
equals the mathematical signed difference `cur.bytes - prev.bytes` (for rx
and tx alike) whenever that difference fits in int64 — in particular a
counter reset gives the raw negative value, with no clamping to 0; outside
that range the int64 reinterpretation wraps (see the counterexample). -/
theorem netDiffer_signed_delta (cur prev : NetworkStats)
    (hrx1 : cur.rxBytes < u64Mod) (hrx2 : prev.rxBytes < u64Mod)
    (htx1 : cur.txBytes < u64Mod) (htx2 : prev.txBytes < u64Mod)
    (hrxlo : -(9223372036854775808 : ℤ) ≤ (cur.rxBytes : ℤ) - prev.rxBytes)
    (hrxhi : (cur.rxBytes : ℤ) - prev.rxBytes < 9223372036854775808)
    (htxlo : -(9223372036854775808 : ℤ) ≤ (cur.txBytes : ℤ) - prev.txBytes)
    (htxhi : (cur.txBytes : ℤ) - prev.txBytes < 9223372036854775808) :
    rxDiffer cur prev = (cur.rxBytes : ℤ) - prev.rxBytes ∧
      txDiffer cur prev = (cur.txBytes : ℤ) - prev.txBytes :=
  ⟨toInt64_u64sub _ _ hrx1 hrx2 hrxlo hrxhi,
    toInt64_u64sub _ _ htx1 htx2 htxlo htxhi⟩

/-- C6 witness theorem: the spec's counter-reset example, prev rx 1000 and
cur rx 900, derives `-100` unmodified. -/
theorem netDiffer_signed_delta_witness :
    rxDiffer ⟨900, 7⟩ ⟨1000, 5⟩ = -100 ∧ txDiffer ⟨900, 7⟩ ⟨1000, 5⟩ = 2 := by
  have h := netDiffer_signed_delta ⟨900, 7⟩ ⟨1000, 5⟩ (by decide) (by decide)
    (by decide) (by decide) (by decide) (by decide) (by decide) (by decide)
  exact ⟨h.1.trans (by decide), h.2.trans (by decide)⟩

/-- C6 counterexample.  For `cur.rx = 2^63`, `prev.rx = 0` the true signed
difference `2^63` does not fit in int64: the code returns the wrapped value
`-2^63`, so the delta is not always the raw signed difference. -/
theorem rxDiffer_wraparound_int64 :
    rxDiffer ⟨9223372036854775808, 0⟩ ⟨0, 0⟩ = -9223372036854775808 ∧
      ((9223372036854775808 : ℕ) : ℤ) - ((0 : ℕ) : ℤ) ≠ -9223372036854775808 := by
  decide

/-! ### C7: series generation over adjacent pairs -/

/-- The `for i := range stats { if i > 0 { ... } }` loop shape: filtering the
index range by `0 < i` is mapping `i + 1` over the shortened range. -/
theorem filterMap_range_pos {α : Type} (f : ℕ → α) (n : ℕ) :
    ((List.range n).filterMap fun i => if 0 < i then some (f i) else none) =
      (List.range (n - 1)).map fun i => f (i + 1) := by
  induction n with
  | zero => rfl
  | succ m ih =>
    rw [List.range_succ, List.filterMap_append, ih]
    cases m with
    | zero => rfl
    | succ k =>
      rw [Nat.succ_sub_one, Nat.succ_sub_one, List.range_succ, List.map_append]
      simp

/-- Element lookup in the mapped range. -/
theorem getD_map_range {α : Type} [Inhabited α] (f : ℕ → α) (n i : ℕ) (d : α)
    (hi : i < n) :
    (((List.range n).map fun j => f (j + 1)).getD i d) = f (i + 1) := by
  rw [List.getD_eq_getElem?_getD, List.getElem?_map, List.getElem?_range hi]
  rfl

/-- C7.  For a buffer of `N` snapshots both derived series (CPU percent and
network delta, for any direction selector) hold exactly `N - 1` values; a
buffer of 0 or 1 snapshots yields an empty series; and the `i`-th series
entry is derived from the adjacent pair at positions `i` and `i + 1`, so the
series is in chronological order and no element before position 0 is ever
accessed. -/
theorem series_adjacent_pairs (stats : List Stats)
    (differ : NetworkStats → NetworkStats → ℤ) :
    (genCPUSystemUsage stats).length = stats.length - 1 ∧
    (genNetwork stats differ).length = stats.length - 1 ∧
    (stats.length ≤ 1 → genCPUSystemUsage stats = [] ∧ genNetwork stats differ = []) ∧
    (∀ i, i + 1 < stats.length →
      (genCPUSystemUsage stats).getD i 0 = cpuPercent stats (i + 1) ∧
      (genNetwork stats differ).getD i 0 =
        differ (stats.getD (i + 1) default).networkStats
          (stats.getD i default).networkStats) := by
  have hcpu : genCPUSystemUsage stats =
      (List.range (stats.length - 1)).map fun i => cpuPercent stats (i + 1) := by
    rw [genCPUSystemUsage, filterMap_range_pos]
  have hnet : genNetwork stats differ =
      (List.range (stats.length - 1)).map fun i =>
        differ (stats.getD (i + 1) default).networkStats
          (stats.getD (i + 1 - 1) default).networkStats := by
    rw [genNetwork, filterMap_range_pos (fun i =>
      differ (stats.getD i default).networkStats
        (stats.getD (i - 1) default).networkStats)]
  refine ⟨?_, ?_, ?_, ?_⟩
  · rw [hcpu, List.length_map, List.length_range]
  · rw [hnet, List.length_map, List.length_range]
  · intro h
    have hn : stats.length - 1 = 0 := by omega
    rw [hcpu, hnet, hn]
    exact ⟨rfl, rfl⟩
  · intro i hi
    have hi' : i < stats.length - 1 := by omega
    constructor
    · rw [hcpu, getD_map_range _ _ _ _ hi']
    · rw [hnet, getD_map_range (fun j =>
        differ (stats.getD j default).networkStats
          (stats.getD (j - 1) default).networkStats) _ _ _ hi']
      simp

/-- C7 witness: three concrete snapshots. -/
def c7a : Stats :=
  { read := 1
    cpuStats := ⟨⟨10, [0]⟩, 100⟩
    memoryStats := ⟨0, 0⟩
    networkStats := ⟨5, 6⟩ }

/-- C7 witness: second snapshot. -/
def c7b : Stats :=
  { read := 2
    cpuStats := ⟨⟨20, [0]⟩, 200⟩
    memoryStats := ⟨0, 0⟩
    networkStats := ⟨50, 60⟩ }

/-- C7 witness: third snapshot. -/
def c7c : Stats :=
  { read := 3
    cpuStats := ⟨⟨30, [0]⟩, 400⟩
    memoryStats := ⟨0, 0⟩
    networkStats := ⟨40, 600⟩ }

/-- C7 witness theorem: a 3-snapshot buffer yields series of length 2, a
1-snapshot buffer yields empty series, and entry 0 of the rx series is the
delta of the adjacent pair (positions 0 and 1). -/
theorem series_adjacent_pairs_witness :
    (genCPUSystemUsage [c7a, c7b, c7c]).length = 2 ∧
      genNetwork [c7a] rxDiffer = [] ∧
      (genNetwork [c7a, c7b, c7c] rxDiffer).getD 0 0 =
        rxDiffer c7b.networkStats c7a.networkStats := by
  refine ⟨(series_adjacent_pairs [c7a, c7b, c7c] rxDiffer).1.trans (by decide), ?_, ?_⟩
  · exact ((series_adjacent_pairs [c7a] rxDiffer).2.2.1 (by decide)).2
  · exact (((series_adjacent_pairs [c7a, c7b, c7c] rxDiffer).2.2.2 0 (by decide)).2).trans
      (by decide)

/-! ### History store lemmas -/

/-- `dockerStats` unfolded: trim the local view, then either keep the old
store (duplicate timestamp) or persist the trimmed view plus the new
snapshot. -/
theorem dockerStats_eq (width : ℤ) (old : List Stats) (s : Stats) :
    dockerStats width old s =
      if (if (old.length : ℤ) > width - 2 then old.tail else old).getLast?.map Stats.read
          = some s.read then old
      else (if (old.length : ℤ) > width - 2 then old.tail else old) ++ [s] := rfl

/-- Ingesting into an empty history stores the single snapshot. -/
theorem dockerStats_nil (width : ℤ) (s : Stats) : dockerStats width [] s = [s] := by
  have h : (if ((([] : List Stats).length : ℤ) > width - 2)
      then ([] : List Stats).tail else []) = [] := by
    split <;> rfl
  rw [dockerStats_eq, h]
  simp

/-- The tail of a list with at least two elements has the same last
element. -/
theorem getLast?_tail_of_two_le {α : Type} (l : List α) (h : 2 ≤ l.length) :
    l.tail.getLast? = l.getLast? := by
  cases l with
  | nil => simp at h
  | cons a t =>
    cases t with
    | nil => simp at h
    | cons b t2 => rw [List.tail_cons, List.getLast?_cons_cons]

/-- Shared duplicate lemma: with a trim bound of at least one
(`width ≥ 3`), ingesting a snapshot whose timestamp equals the stored last
snapshot's leaves the store unchanged — the locally computed trim is
discarded by the early return. -/
theorem dockerStats_dup (width : ℤ) (old : List Stats) (s : Stats) (hw : 3 ≤ width)
    (hlast : old.getLast?.map Stats.read = some s.read) :
    dockerStats width old s = old := by
  have hne : old ≠ [] := by
    intro h
    rw [h] at hlast
    simp at hlast
  have hpos : 0 < old.length := List.length_pos.mpr hne
  have hdat : (if (old.length : ℤ) > width - 2 then old.tail else old).getLast?
      = old.getLast? := by
    split
    next htrim => exact getLast?_tail_of_two_le old (by omega)
    next => rfl
  rw [dockerStats_eq, hdat, hlast, if_pos rfl]

/-- C4 (amended).  Provided the trim bound is at least one (display width at
least 3): a snapshot whose `Read` timestamp equals the stored last
snapshot's is discarded, leaving the store unchanged; in particular
ingesting two snapshots with identical timestamps into an empty history
stores exactly one entry — the first.  (For widths below 3 a single-entry
history is emptied by the trim before the duplicate check, and the
duplicate is appended instead: see the counterexample.) -/
theorem dockerStats_dedup_first_kept (width : ℤ) (old : List Stats) (s1 s2 : Stats)
    (hw : 3 ≤ width) :
    (old.getLast?.map Stats.read = some s2.read → dockerStats width old s2 = old) ∧
    (s1.read = s2.read → ingestAll width [s1, s2] = [s1]) := by
  constructor
  · exact fun h => dockerStats_dup width old s2 hw h
  · intro hr
    have h1 : ingestAll width [s1, s2] = dockerStats width (dockerStats width [] s1) s2 := rfl
    rw [h1, dockerStats_nil]
    exact dockerStats_dup width [s1] s2 hw (by simp [hr])

/-- C4 witness: snapshot with timestamp 5. -/
def c4w1 : Stats :=
  { read := 5
    cpuStats := ⟨⟨1, []⟩, 1⟩
    memoryStats := ⟨1, 1⟩
    networkStats := ⟨1, 1⟩ }

/-- C4 witness: a different snapshot with the same timestamp 5. -/
def c4w2 : Stats :=
  { read := 5
    cpuStats := ⟨⟨2, []⟩, 2⟩
    memoryStats := ⟨2, 2⟩
    networkStats := ⟨2, 2⟩ }

/-- C4 witness theorem: at width 3 the duplicate is discarded and the first
entry kept. -/
theorem dockerStats_dedup_first_kept_witness :
    dockerStats 3 [c4w1] c4w2 = [c4w1] ∧ ingestAll 3 [c4w1, c4w2] = [c4w1] := by
  obtain ⟨h1, h2⟩ := dockerStats_dedup_first_kept 3 [c4w1] c4w1 c4w2 (by decide)
  exact ⟨h1 (by decide), h2 (by decide)⟩

/-- C4 counterexample: snapshot with timestamp 5 and memory usage 1. -/
def c4s1 : Stats :=
  { read := 5
    cpuStats := ⟨⟨0, []⟩, 0⟩
    memoryStats := ⟨1, 0⟩
    networkStats := ⟨0, 0⟩ }

/-- C4 counterexample: a distinct snapshot with the same timestamp 5. -/
def c4s2 : Stats :=
  { read := 5
    cpuStats := ⟨⟨0, []⟩, 0⟩
    memoryStats := ⟨2, 0⟩
    networkStats := ⟨0, 0⟩ }

/-- C4 counterexample.  At display width 2 (`ui.Body.Width = 2`) the trim
empties a single-entry history before the duplicate check, so appending two
snapshots with identical `Read` timestamps stores exactly one entry — but
the second, not the first, contradicting the claim as stated for every
stored history. -/
theorem dockerStats_dup_small_width_keeps_second :
    c4s1.read = c4s2.read ∧ ingestAll 2 [c4s1, c4s2] = [c4s2] ∧ c4s2 ≠ c4s1 := by
  decide

/-! ### C5: bounded FIFO history -/

/-- C5 witness: first snapshot, timestamp 1. -/
def c5a : Stats :=
  { read := 1
    cpuStats := ⟨⟨1, []⟩, 1⟩
    memoryStats := ⟨0, 0⟩
    networkStats := ⟨0, 0⟩ }

/-- C10 (amended).  With a trim bound of at least one (width at least 3),
ingesting a snapshot whose timestamp equals the stored last snapshot's
leaves the stored history entirely unchanged: the capacity trim computed
before the duplicate check is not persisted, so a duplicate delivery on a
full buffer does not shrink the stored history.  (For widths below 3 and a
single-entry history the trimmed view is empty, the duplicate check misses,
and the duplicate replaces the stored entry: see the counterexample.) -/
theorem dockerStats_dup_atomic (width : ℤ) (old : List Stats) (s : Stats)
    (hw : 3 ≤ width) (hlast : old.getLast?.map Stats.read = some s.read) :
    dockerStats width old s = old ∧ (dockerStats width old s).length = old.length := by
  have h := dockerStats_dup width old s hw hlast
  exact ⟨h, by rw [h]⟩

/-- C10 witness: first stored snapshot, timestamp 1. -/
def c10a : Stats :=
  { read := 1
    cpuStats := ⟨⟨1, []⟩, 1⟩
    memoryStats := ⟨3, 4⟩
    networkStats := ⟨0, 0⟩ }

/-- C10 witness: second stored snapshot, timestamp 9. -/
def c10b : Stats :=
  { read := 9
    cpuStats := ⟨⟨2, []⟩, 2⟩
    memoryStats := ⟨5, 6⟩
    networkStats := ⟨0, 0⟩ }

/-- C10 witness: duplicate delivery with the same timestamp 9. -/
def c10dup : Stats :=
  { read := 9
    cpuStats := ⟨⟨7, []⟩, 7⟩
    memoryStats := ⟨7, 7⟩
    networkStats := ⟨7, 7⟩ }

/-- C10 witness theorem: at width 3 the history `[c10a, c10b]` is full
(length 2 exceeds the trim bound `width - 2 = 1`, so the local view is
trimmed), yet the duplicate delivery leaves the stored history unchanged. -/
theorem dockerStats_dup_atomic_witness :
    dockerStats 3 [c10a, c10b] c10dup = [c10a, c10b] ∧
      (dockerStats 3 [c10a, c10b] c10dup).length = 2 := by
  obtain ⟨h1, h2⟩ := dockerStats_dup_atomic 3 [c10a, c10b] c10dup (by decide) (by decide)
  exact ⟨h1, h2.trans (by decide)⟩

/-- C10 counterexample: stored snapshot, timestamp 7. -/
def c10s1 : Stats :=
  { read := 7
    cpuStats := ⟨⟨0, []⟩, 0⟩
    memoryStats := ⟨1, 0⟩
    networkStats := ⟨0, 0⟩ }

/-- C10 counterexample: duplicate delivery, same timestamp 7, different
payload. -/
def c10s2 : Stats :=
  { read := 7
    cpuStats := ⟨⟨0, []⟩, 0⟩
    memoryStats := ⟨9, 0⟩
    networkStats := ⟨0, 0⟩ }

/-- C10 counterexample.  At display width 2 the single-entry history is
trimmed to empty before the duplicate check, the check misses, and the
duplicate ingest rewrites the stored history — the store is not left
unchanged. -/
theorem dockerStats_dup_trim_persisted_small_width :
    c10s1.read = c10s2.read ∧ dockerStats 2 [c10s1] c10s2 = [c10s2] ∧
      [c10s2] ≠ [c10s1] := by
  decide

/-! ### Reconciliation (`containerList` drawer, success path) -/

/-- The globals mutated by the `containerList` drawer: the per-container
stats map (as an association list), the cached container list, and the
details selection (index typed by the operator, resolved id). -/
structure EngineState where
  statsData : List (String × List Stats)
  allcontainers : List Container
  containerDetailsIndex : ℕ
  containerDetailsID : String
  deriving DecidableEq, Inhabited

/-- The success branch of the `containerList` drawer (main.go): for each
listed container, `containerDetailsID` is set when the loop index matches
`containerDetailsIndex` (otherwise the previous value is kept); the new
stats map keeps exactly the existing entries of listed ids (an unseen id
only gets `StartMonitorStats` started — no map entry until its first
snapshot arrives); finally `allcontainers` is replaced and an empty list
resets `containerDetailsID`. -/
def reconcileList (s : EngineState) (containers : List Container) : EngineState :=
  let detId := match containers[s.containerDetailsIndex]? with
    | some c => c.id
    | none => s.containerDetailsID
  let newstats := containers.filterMap fun c =>
    (s.statsData.lookup c.id).map fun dat => (c.id, dat)
  { statsData := newstats
    allcontainers := containers
    containerDetailsIndex := s.containerDetailsIndex
    containerDetailsID := if containers.isEmpty then "" else detId }

/-- Keys of the rebuilt stats map all come from the listed container ids:
looking up an unlisted id gives nothing. -/
theorem lookup_rebuilt_not_listed (m : List (String × List Stats))
    (cs : List Container) (x : String) (hx : x ∉ cs.map Container.id) :
    (cs.filterMap fun c => (m.lookup c.id).map fun dat => (c.id, dat)).lookup x
      = none := by
  induction cs with
  | nil => rfl
  | cons c rest ih =>
    rw [List.map_cons, List.mem_cons] at hx
    push_neg at hx
    obtain ⟨hx1, hx2⟩ := hx
    rw [List.filterMap_cons]
    cases hlk : m.lookup c.id with
    | none => exact ih hx2
    | some dat =>
      rw [Option.map_some']
      rw [List.lookup_cons]
      have hbeq : (x == c.id) = false := beq_eq_false_iff_ne.mpr hx1
      rw [hbeq]
      exact ih hx2

/-- For a duplicate-free container list, looking a listed id up in the
rebuilt stats map gives exactly what the old map held for it. -/
theorem lookup_rebuilt_listed (m : List (String × List Stats))
    (cs : List Container) (x : Container)
    (hnd : (cs.map Container.id).Nodup) (hx : x ∈ cs) :
    (cs.filterMap fun c => (m.lookup c.id).map fun dat => (c.id, dat)).lookup x.id
      = m.lookup x.id := by
  induction cs with
  | nil => cases hx
  | cons c rest ih =>
    rw [List.map_cons, List.nodup_cons] at hnd
    obtain ⟨hnotin, hnd2⟩ := hnd
    rcases List.mem_cons.mp hx with rfl | hx2
    · cases hlk : m.lookup x.id with
      | none =>
        simp only [List.filterMap_cons, hlk, Option.map_none']
        rw [lookup_rebuilt_not_listed m rest x.id hnotin]
      | some dat =>
        simp only [List.filterMap_cons, hlk, Option.map_some']
        exact List.lookup_cons_self
    · have hxid : x.id ∈ rest.map Container.id := List.mem_map_of_mem Container.id hx2
      have hne : x.id ≠ c.id := by
        intro h
        rw [h] at hxid
        exact hnotin hxid
      cases hlk : m.lookup c.id with
      | none =>
        simp only [List.filterMap_cons, hlk, Option.map_none']
        exact ih hnd2 hx2
      | some dat =>
        simp only [List.filterMap_cons, hlk, Option.map_some', List.lookup_cons]
        have hbeq : (x.id == c.id) = false := beq_eq_false_iff_ne.mpr hne
        rw [hbeq]
        exact ih hnd2 hx2

/-! ### C8: reconciliation idempotence -/

/-- C8 (amended).  For a duplicate-free container list, reconciling twice in
a row is a no-op on the second call: surviving histories keep their exact
contents, unlisted histories stay removed, and no history is re-created or
duplicated.  (Reconciliation itself never creates a history for a newly
seen id — it only starts the stats stream, and the history appears on first
ingest: see the counterexample.) -/
theorem reconcileList_idempotent (s : EngineState) (containers : List Container)
    (hnd : (containers.map Container.id).Nodup) :
    reconcileList (reconcileList s containers) containers
      = reconcileList s containers := by
  unfold reconcileList
  simp only [EngineState.mk.injEq]
  refine ⟨?_, trivial, trivial, ?_⟩
  · exact List.filterMap_congr fun c hc => by
      rw [lookup_rebuilt_listed s.statsData containers c hnd hc]
  · cases hix : containers[s.containerDetailsIndex]? with
    | some c => rfl
    | none =>
      cases hempty : containers.isEmpty
      · simp [hempty]
      · simp [hempty]

/-- C8 witness: a state already holding a history for container id A. -/
def c8s : EngineState :=
  { statsData := [("A", [c5a])]
    allcontainers := []
    containerDetailsIndex := 0
    containerDetailsID := "" }

/-- C8 witness: the reconciled container list, ids A and B. -/
def c8cs : List Container := [⟨"A", ["nameA"]⟩, ⟨"B", ["nameB"]⟩]

/-- C8 witness theorem: reconciling `{A, B}` twice equals reconciling it
once. -/
theorem reconcileList_idempotent_witness :
    reconcileList (reconcileList c8s c8cs) c8cs = reconcileList c8s c8cs :=
  reconcileList_idempotent c8s c8cs (by decide)

/-- C8 counterexample: the empty engine state. -/
def c8s0 : EngineState :=
  { statsData := []
    allcontainers := []
    containerDetailsIndex := 0
    containerDetailsID := "" }

/-- C8 counterexample: a container with id A. -/
def c8A : Container := ⟨"A", ["nameA"]⟩

/-- C8 counterexample.  Reconciling `{A}` twice from an empty state leaves
no history at all for A — reconciliation does not create histories for
newly seen ids (they are only created on first ingest), so "exactly one
history per id in the set" fails as stated. -/
theorem reconcile_no_history_created :
    (reconcileList (reconcileList c8s0 [c8A]) [c8A]).statsData.lookup "A" = none ∧
      (reconcileList (reconcileList c8s0 [c8A]) [c8A]).statsData = [] := by
  exact ⟨rfl, rfl⟩

/-! ### C9: details selection by index -/

/-- C9 (amended).  An index within the current container list selects the
id at that position.  But an out-of-range (stale) index does not yield a
NotFound/empty fallback: when the list is non-empty the previously selected
id is kept (so the details panel keeps showing the previously selected
container); the selection is cleared only when the list comes back
empty. -/
theorem reconcileList_details_selection (s : EngineState)
    (containers : List Container) :
    (s.containerDetailsIndex < containers.length →
      (reconcileList s containers).containerDetailsID
        = (containers.getD s.containerDetailsIndex default).id) ∧
    (containers ≠ [] → containers.length ≤ s.containerDetailsIndex →
      (reconcileList s containers).containerDetailsID = s.containerDetailsID) ∧
    (containers = [] → (reconcileList s containers).containerDetailsID = "") := by
  refine ⟨?_, ?_, ?_⟩
  · intro h
    have hne : containers ≠ [] := by
      intro hc
      rw [hc] at h
      simp at h
    have hix : containers[s.containerDetailsIndex]?
        = some containers[s.containerDetailsIndex] := List.getElem?_eq_getElem h
    have hempty : containers.isEmpty = false := by
      simpa [List.isEmpty_iff] using hne
    simp [reconcileList, hix, hempty, List.getD_eq_getElem?_getD]
  · intro hne hle
    have hix : containers[s.containerDetailsIndex]? = none := List.getElem?_eq_none hle
    have hempty : containers.isEmpty = false := by
      simpa [List.isEmpty_iff] using hne
    simp [reconcileList, hix, hempty]
  · intro hc
    subst hc
    rfl

/-- C9 witness: a state whose operator-typed index is 0 with a previous
selection. -/
def c9s : EngineState :=
  { statsData := []
    allcontainers := []
    containerDetailsIndex := 0
    containerDetailsID := "old" }

/-- C9 witness: a one-container list with id B. -/
def c9B : Container := ⟨"B", ["nameB"]⟩

/-- C9 witness theorem: index 0 selects the container at position 0. -/
theorem reconcileList_details_selection_witness :
    (reconcileList c9s [c9B]).containerDetailsID = "B" := by
  have h := (reconcileList_details_selection c9s [c9B]).1 (by decide)
  exact h.trans (by decide)

/-- C9 counterexample: a state with stale out-of-range index 5 and previous
selection "A". -/
def c9stale : EngineState :=
  { statsData := []
    allcontainers := []
    containerDetailsIndex := 5
    containerDetailsID := "A" }

/-- C9 counterexample.  With index 5 against a one-container list (id B),
the code keeps the previously selected id "A" — it is not among the current
ids and is not an empty/NotFound fallback, so the caller shows the
previously selected container rather than empty details. -/
theorem details_stale_index_keeps_previous :
    (reconcileList c9stale [c9B]).containerDetailsID = "A" ∧
      "A" ∉ [c9B].map Container.id ∧ "A" ≠ "" := by
  decide

end Dockmon
